import Mathlib

/-!
Verification development for the Cricket-Ready Ball Classifier backend
(`src/backend/src/main.rs`).

The backend is a small HTTP service with two handlers:

* `predict_image_route` — decodes a multipart body, writes the image to a
  scratch file `/tmp/cricket_ball_<request_id>.jpg`, runs an external
  classifier process on it, removes the scratch file, and parses the
  process stdout with `parse_prediction_output` into
  `{"prediction": ..., "confidence": ...}`.
* `training_route` — decodes a multipart body with an image and a label,
  validates the label, and persists the image under
  `training_data/<label>/cricket_ball_<timestamp>_<request_id>.jpg`,
  appending an audit record to `training_data/training_log.jsonl`.

Modelling conventions:

* Rust strings are modelled as `List Char` in the string-processing layer
  (the patterns the code searches for are ASCII, so byte indices and
  character indices agree on every slice the code takes), and as `String`
  at the HTTP/response layer.
* Byte buffers (`BytesMut`) are `List Nat`.
* `f64` values are modelled by `F64`: exact decimal rationals plus the
  `inf`/`-inf`/`NaN` payloads recognised by Rust's `str::parse::<f64>`.
  Value-level rounding of decimal literals to binary doubles is not
  modelled; no theorem below depends on it.
* Filesystem and process effects are modelled by passing in an
  environment of outcomes (write/spawn/remove/mkdir/append results) and
  returning the response together with the list of attempted filesystem
  effects and the `RequestLogger` lines the handler emits.
* Fallible Rust operations that can panic (string slicing) are modelled
  twice: once with total list operations, and once returning `Option`
  (`none` = panic); a theorem shows the checked variant never panics.
-/

/-! ## Decimal rendering (Rust `Display` for integers) -/

/-- One decimal digit to its ASCII character (values ≥ 9 clamp to `'9'`;
only applied to `_ % 10` below). -/
def digitChar : Nat → Char
  | 0 => '0' | 1 => '1' | 2 => '2' | 3 => '3' | 4 => '4'
  | 5 => '5' | 6 => '6' | 7 => '7' | 8 => '8' | _ => '9'

/-- Fuel-based most-significant-first decimal digits of `n` (fuel ≥ n
suffices, the empty list is returned for `n = 0`). -/
def natReprAux : Nat → Nat → List Char
  | _, 0 => []
  | 0, _ + 1 => []
  | f + 1, n + 1 => natReprAux f ((n + 1) / 10) ++ [digitChar ((n + 1) % 10)]

/-- Decimal rendering of a natural number, as Rust's `{}` formatting. -/
def natRepr (n : Nat) : List Char := if n = 0 then ['0'] else natReprAux n n

/-- Decimal rendering of an `i64`, as Rust's `{}` formatting. -/
def intRepr : Int → List Char
  | .ofNat n => natRepr n
  | .negSucc n => '-' :: natRepr (n + 1)

/-- `natRepr` as a `String`. -/
def natReprStr (n : Nat) : String := String.mk (natRepr n)

/-- `intRepr` as a `String`. -/
def intReprStr (i : Int) : String := String.mk (intRepr i)

/-- Zero-pad a digit string on the left to width `w` (chrono's padded
numeric format specifiers). -/
def padLeft (w : Nat) (s : List Char) : List Char :=
  List.replicate (w - s.length) '0' ++ s

/-! ## Timestamps (`chrono::Utc::now()` values and `%Y%m%d_%H%M%S_%3f`) -/

/-- A UTC instant as chrono exposes it to the formatter: calendar fields
plus nanoseconds within the second.  (Years are taken non-negative; the
service only ever formats current dates.) -/
structure DateTime where
  year : Nat
  month : Nat
  day : Nat
  hour : Nat
  minute : Nat
  second : Nat
  nano : Nat
  deriving DecidableEq, Repr

/-- chrono's `format("%Y%m%d_%H%M%S_%3f")`: zero-padded calendar fields;
`%3f` is exactly three digits — the **millisecond** part (nanoseconds
truncated to ms). -/
def fmtTimestamp (t : DateTime) : List Char :=
  padLeft 4 (natRepr t.year) ++ padLeft 2 (natRepr t.month) ++ padLeft 2 (natRepr t.day)
    ++ ['_'] ++ padLeft 2 (natRepr t.hour) ++ padLeft 2 (natRepr t.minute)
    ++ padLeft 2 (natRepr t.second) ++ ['_'] ++ padLeft 3 (natRepr (t.nano / 1000000))

/-- `format!("cricket_ball_{}_{}.jpg", timestamp, request_id)` from
`training_route`. -/
def trainingFileNameChars (t : DateTime) (requestId : Int) : List Char :=
  "cricket_ball_".toList ++ fmtTimestamp t ++ ['_'] ++ intRepr requestId ++ ".jpg".toList

/-- The training image filename as a `String`. -/
def trainingFileName (t : DateTime) (requestId : Int) : String :=
  String.mk (trainingFileNameChars t requestId)

/-- `format!("/tmp/cricket_ball_{}.jpg", request_id)` from
`predict_image_route`. -/
def tempPath (requestId : Int) : String :=
  "/tmp/cricket_ball_" ++ intReprStr requestId ++ ".jpg"

/-! ## Rust string search primitives (`str::find`, `str::contains`,
`str::lines`) over `List Char` -/

/-- Rust `haystack.find(pat)`: index of the first occurrence of substring
`pat`, if any. -/
def findSub (pat : List Char) : List Char → Option Nat
  | [] => if pat.isPrefixOf [] then some 0 else none
  | c :: t => if pat.isPrefixOf (c :: t) then some 0 else (findSub pat t).map (· + 1)

/-- Rust `haystack.contains(pat)` for substring patterns. -/
def containsSub (pat s : List Char) : Bool := (findSub pat s).isSome

/-- Rust `haystack.find(c)` for a character pattern. -/
def findCharIdx (c : Char) (s : List Char) : Option Nat := s.findIdx? (· = c)

/-- Split at every newline, keeping empty pieces (`n` newlines give
`n + 1` pieces). -/
def splitNl : List Char → List (List Char)
  | [] => [[]]
  | c :: rest =>
    match splitNl rest with
    | [] => [[c]]
    | h :: t => if c = '\n' then [] :: h :: t else (c :: h) :: t

/-- Drop a single trailing `'\r'` (Rust `lines()` treats `\r\n` as a line
terminator). -/
def stripCr (l : List Char) : List Char :=
  if l.getLast? = some '\r' then l.dropLast else l

/-- Rust `s.lines().collect()`: split on `'\n'`, the final line ending is
optional, each line is stripped of one trailing `'\r'`. -/
def rustLines (s : List Char) : List (List Char) :=
  let p := splitNl s
  (if p.getLast? = some [] then p.dropLast else p).map stripCr

/-! ## `f64` values and Rust `str::parse::<f64>` -/

/-- A parsed `f64`, with finite values carried as exact decimal
rationals. -/
inductive F64 where
  | finite (q : ℚ)
  | inf
  | neginf
  | nan
  deriving DecidableEq, Repr

/-- ASCII decimal digit test. -/
def isDigit (c : Char) : Bool := '0' ≤ c ∧ c ≤ '9'

/-- ASCII lower-casing (for the case-insensitive `inf`/`infinity`/`nan`
keywords). -/
def asciiLower (c : Char) : Char :=
  if 'A' ≤ c ∧ c ≤ 'Z' then Char.ofNat (c.toNat + 32) else c

/-- Numeric value of a digit string. -/
def digitsVal (l : List Char) : Nat :=
  l.foldl (fun a c => a * 10 + (c.toNat - 48)) 0

/-- Parse `Count '.'? Count? Exp?` / `'.' Count Exp?` (the `Number`
production of Rust's `f64` grammar), given the sign already consumed. -/
def parseF64Number (neg : Bool) (s : List Char) : Option F64 :=
  let (d1, r1) := s.span isDigit
  let (d2, r2) :=
    match r1 with
    | '.' :: r => let (d2, r2) := r.span isDigit; (d2, r2)
    | r => ([], r)
  let hasDot : Bool := match r1 with | '.' :: _ => true | _ => false
  -- at least one integer digit, or a dot with at least one fraction digit
  if d1 = [] ∧ (hasDot = false ∨ d2 = []) then none
  else
    let mantissa : ℚ := mkRat (Int.ofNat (digitsVal (d1 ++ d2))) (10 ^ d2.length)
    match r2 with
    | [] =>
        let q := if neg then -mantissa else mantissa
        some (.finite q)
    | e :: r3 =>
        if e = 'e' ∨ e = 'E' then
          let (eneg, r4) :=
            match r3 with
            | '+' :: r => (false, r)
            | '-' :: r => (true, r)
            | r => (false, r)
          let (ed, r5) := r4.span isDigit
          if ed = [] ∨ r5 ≠ [] then none
          else
            let scaled : ℚ :=
              if eneg then mantissa * mkRat 1 (10 ^ digitsVal ed)
              else mantissa * ((10 : ℚ) ^ digitsVal ed)
            some (.finite (if neg then -scaled else scaled))
        else none

/-- Rust `s.parse::<f64>()`.  Finite results are exact decimal rationals
(binary rounding and overflow-to-infinity are not modelled); the special
keywords `inf`/`infinity`/`nan` are case-insensitive as in Rust. -/
def rustParseF64 (s : List Char) : Option F64 :=
  let (neg, rest) :=
    match s with
    | '+' :: r => (false, r)
    | '-' :: r => (true, r)
    | r => (false, r)
  let low := rest.map asciiLower
  if low = "inf".toList ∨ low = "infinity".toList then
    some (if neg then .neginf else .inf)
  else if low = "nan".toList then some .nan
  else parseF64Number neg rest

/-! ## Result Parser (`parse_prediction_output`, main.rs lines 290–354) -/

/-- The JSON value the parser produces:
`json!({"prediction": prediction, "confidence": confidence})`. -/
structure PredictionResult where
  prediction : String
  confidence : F64
  deriving DecidableEq, Repr

/-- The five mutable locals of `parse_prediction_output`. -/
structure ParseSt where
  prediction : String
  confidence : F64
  match_ready_prob : F64
  not_match_ready_prob : F64
  image_name : List Char
  deriving DecidableEq, Repr

/-- Initial values of the parser locals. -/
def parseStInit : ParseSt :=
  { prediction := "unknown"
    confidence := .finite 0
    match_ready_prob := .finite 0
    not_match_ready_prob := .finite 0
    image_name := "uploaded_image".toList }

/-- One iteration of the `for line in lines` loop of
`parse_prediction_output` (total version; list slicing is total and the
indices involved are in bounds, see `parseLineChk_eq`). -/
def parseLine (st : ParseSt) (line : List Char) : ParseSt :=
  if containsSub "Final Prediction:".toList line then
    if containsSub "MATCH_READY".toList line then
      { st with prediction := "match_ready" }
    else if containsSub "NOT_MATCH_READY".toList line then
      { st with prediction := "not_match_ready" }
    else st
  else if containsSub "Confidence:".toList line then
    match findSub "Confidence: ".toList line with
    | some start =>
      let confidence_str := line.drop (start + 12)
      match findCharIdx ' ' confidence_str with
      | some e =>
        match rustParseF64 (confidence_str.take e) with
        | some conf => { st with confidence := conf }
        | none => st
      | none => st
    | none => st
  else if containsSub "match_ready:".toList line then
    match findSub "match_ready: ".toList line with
    | some start =>
      let prob_str := line.drop (start + 13)
      match findCharIdx ' ' prob_str with
      | some e =>
        match rustParseF64 (prob_str.take e) with
        | some prob => { st with match_ready_prob := prob }
        | none => st
      | none => st
    | none => st
  else if containsSub "not_match_ready:".toList line then
    match findSub "not_match_ready: ".toList line with
    | some start =>
      let prob_str := line.drop (start + 17)
      match findCharIdx ' ' prob_str with
      | some e =>
        match rustParseF64 (prob_str.take e) with
        | some prob => { st with not_match_ready_prob := prob }
        | none => st
      | none => st
    | none => st
  else if containsSub "Image:".toList line then
    match findSub "Image: ".toList line with
    | some start =>
      let name_start := start + 7
      match findCharIdx '\n' (line.drop name_start) with
      | some e => { st with image_name := (line.drop name_start).take e }
      | none => { st with image_name := line.drop name_start }
    | none => st
  else st

/-- `parse_prediction_output`: fold the loop body over the lines of the
process stdout and build the JSON result. -/
def parse_prediction_output (output : List Char) : PredictionResult :=
  let st := (rustLines output).foldl parseLine parseStInit
  { prediction := st.prediction, confidence := st.confidence }

/-! ### Checked variant: Rust string slicing can panic; `none` models a
panic below. -/

/-- Rust `&s[i..]`: panics (`none`) when `i` is out of bounds. -/
def sliceFrom? (l : List Char) (i : Nat) : Option (List Char) :=
  if i ≤ l.length then some (l.drop i) else none

/-- Rust `&s[..i]`: panics (`none`) when `i` is out of bounds. -/
def sliceTo? (l : List Char) (i : Nat) : Option (List Char) :=
  if i ≤ l.length then some (l.take i) else none

/-- The loop body with every Rust slice bounds-checked. -/
def parseLineChk (st : ParseSt) (line : List Char) : Option ParseSt :=
  if containsSub "Final Prediction:".toList line then
    if containsSub "MATCH_READY".toList line then
      some { st with prediction := "match_ready" }
    else if containsSub "NOT_MATCH_READY".toList line then
      some { st with prediction := "not_match_ready" }
    else some st
  else if containsSub "Confidence:".toList line then
    match findSub "Confidence: ".toList line with
    | some start =>
      match sliceFrom? line (start + 12) with
      | some confidence_str =>
        match findCharIdx ' ' confidence_str with
        | some e =>
          match sliceTo? confidence_str e with
          | some pre =>
            match rustParseF64 pre with
            | some conf => some { st with confidence := conf }
            | none => some st
          | none => none
        | none => some st
      | none => none
    | none => some st
  else if containsSub "match_ready:".toList line then
    match findSub "match_ready: ".toList line with
    | some start =>
      match sliceFrom? line (start + 13) with
      | some prob_str =>
        match findCharIdx ' ' prob_str with
        | some e =>
          match sliceTo? prob_str e with
          | some pre =>
            match rustParseF64 pre with
            | some prob => some { st with match_ready_prob := prob }
            | none => some st
          | none => none
        | none => some st
      | none => none
    | none => some st
  else if containsSub "not_match_ready:".toList line then
    match findSub "not_match_ready: ".toList line with
    | some start =>
      match sliceFrom? line (start + 17) with
      | some prob_str =>
        match findCharIdx ' ' prob_str with
        | some e =>
          match sliceTo? prob_str e with
          | some pre =>
            match rustParseF64 pre with
            | some prob => some { st with not_match_ready_prob := prob }
            | none => some st
          | none => none
        | none => some st
      | none => none
    | none => some st
  else if containsSub "Image:".toList line then
    match findSub "Image: ".toList line with
    | some start =>
      let name_start := start + 7
      match sliceFrom? line name_start with
      | some tail =>
        match findCharIdx '\n' tail with
        | some e =>
          -- `&line[name_start..name_start + end]`
          match sliceTo? tail e with
          | some name => some { st with image_name := name }
          | none => none
        | none => some { st with image_name := tail }
      | none => none
    | none => some st
  else some st

/-- `parse_prediction_output` with bounds-checked slicing; `none` models
a panic escaping the parser. -/
def parse_prediction_output_chk (output : List Char) : Option PredictionResult :=
  ((rustLines output).foldlM parseLineChk parseStInit).map
    (fun st => { prediction := st.prediction, confidence := st.confidence })

/-! ## HTTP responses, logger lines, filesystem effects -/

/-- Response bodies.  JSON bodies are modelled at the value level
(`serde_json` serialization of these fixed shapes always succeeds, so the
handlers' unreachable serialization-error arms are not modelled). -/
inductive RespBody where
  | text (s : String)
  | predJson (result : PredictionResult)
  | trainJson (filename : String) (label : String) (requestId : Int)
  deriving DecidableEq, Repr

/-- An HTTP response: status code plus body (`BadRequest` = 400,
`InternalServerError` = 500, `Ok` = 200). -/
structure HttpResp where
  status : Nat
  body : RespBody
  deriving DecidableEq, Repr

/-- A `RequestLogger` line.  `infoReturning r` stands for
`info(format!("Returning prediction: {}", json))` with the serialized
result carried structurally. -/
inductive LogLine where
  | info (msg : String)
  | error (msg : String)
  | infoReturning (r : PredictionResult)
  deriving DecidableEq, Repr

/-- The audit record `json!({timestamp, request_id, label, filename,
file_path, image_size_bytes})`; the RFC 3339 timestamp is carried
structurally. -/
structure TrainingRecord where
  timestamp : DateTime
  requestId : Int
  label : String
  filename : String
  filePath : String
  imageSizeBytes : Nat
  deriving DecidableEq, Repr

/-- Filesystem operations the handlers attempt, in program order. -/
inductive FsEv where
  | writeTemp (path : String)
  | removeTemp (path : String)
  | createDirAll (path : String)
  | writeTraining (path : String)
  | appendLog (path : String) (record : TrainingRecord)
  deriving DecidableEq, Repr

/-- What a handler produces: the HTTP response, the attempted filesystem
effects, and the logger lines. -/
structure RouteOut where
  resp : HttpResp
  events : List FsEv
  logs : List LogLine
  deriving DecidableEq, Repr

/-! ## UTF-8 lossy decoding (`String::from_utf8_lossy`) -/

/-- U+FFFD REPLACEMENT CHARACTER. -/
def replChar : Char := Char.ofNat 0xFFFD

/-- Handle one byte in the initial decoder state: characters to emit,
then continuation bytes still needed, accumulated code point, and the
valid range for the next continuation byte. -/
def utf8Step0 (b : Nat) : List Char × Nat × Nat × Nat × Nat :=
  if b ≤ 0x7F then ([Char.ofNat b], 0, 0, 0x80, 0xBF)
  else if 0xC2 ≤ b ∧ b ≤ 0xDF then ([], 1, b % 32, 0x80, 0xBF)
  else if 0xE0 ≤ b ∧ b ≤ 0xEF then
    ([], 2, b % 16, if b = 0xE0 then 0xA0 else 0x80, if b = 0xED then 0x9F else 0xBF)
  else if 0xF0 ≤ b ∧ b ≤ 0xF4 then
    ([], 3, b % 8, if b = 0xF0 then 0x90 else 0x80, if b = 0xF4 then 0x8F else 0xBF)
  else ([replChar], 0, 0, 0x80, 0xBF)

/-- The WHATWG streaming UTF-8 decoder with U+FFFD replacement, which is
the behaviour of Rust's `String::from_utf8_lossy`. -/
def utf8LossyAux : List Nat → Nat → Nat → Nat → Nat → List Char
  | [], 0, _, _, _ => []
  | [], _ + 1, _, _, _ => [replChar]
  | b :: rest, 0, _, _, _ =>
    let s := utf8Step0 b
    s.1 ++ utf8LossyAux rest s.2.1 s.2.2.1 s.2.2.2.1 s.2.2.2.2
  | b :: rest, need + 1, cp, lo, hi =>
    if lo ≤ b ∧ b ≤ hi then
      let cp' := cp * 64 + (b % 64)
      if need = 0 then Char.ofNat cp' :: utf8LossyAux rest 0 0 0x80 0xBF
      else utf8LossyAux rest need cp' 0x80 0xBF
    else
      let s := utf8Step0 b
      replChar :: (s.1 ++ utf8LossyAux rest s.2.1 s.2.2.1 s.2.2.2.1 s.2.2.2.2)

/-- `String::from_utf8_lossy(bytes).to_string()`. -/
def utf8LossyStr (bytes : List Nat) : String := String.mk (utf8LossyAux bytes 0 0 0x80 0xBF)

/-! ## Multipart Decoder (`parse_multipart`, `parse_multipart_predict`) -/

instance instDecEqExcept {ε α : Type} [DecidableEq ε] [DecidableEq α] :
    DecidableEq (Except ε α) := fun x y =>
  match x, y with
  | .ok a, .ok b =>
    if h : a = b then isTrue (by rw [h]) else isFalse (by simp [h])
  | .error a, .error b =>
    if h : a = b then isTrue (by rw [h]) else isFalse (by simp [h])
  | .ok _, .error _ => isFalse (by simp)
  | .error _, .ok _ => isFalse (by simp)

/-- One `payload.next()` item: either a stream error or a named field
whose body is a sequence of chunk reads. -/
inductive MPItem where
  | err (e : String)
  | field (name : String) (chunks : List (Except String (List Nat)))
  deriving DecidableEq, Repr

/-- The inner `while let Some(chunk) = field.next()` loop: concatenate
the chunks, failing with `InternalServerError` on the first read error. -/
def readChunks : List (Except String (List Nat)) → Except HttpResp (List Nat)
  | [] => .ok []
  | .error e :: _ => .error ⟨500, .text ("Read error: " ++ e)⟩
  | .ok d :: rest =>
    match readChunks rest with
    | .ok acc => .ok (d ++ acc)
    | .error r => .error r

/-- The outer loop of `parse_multipart`, with the image and label
accumulators explicit. -/
def parseMultipartGo (image : List Nat) (label : Option String) :
    List MPItem → Except HttpResp (List Nat × Option String)
  | [] =>
    if image.isEmpty then .error ⟨400, .text "No image data received"⟩
    else .ok (image, label)
  | .err e :: _ => .error ⟨400, .text ("Multipart error: " ++ e)⟩
  | .field name chunks :: rest =>
    if name = "image" then
      match readChunks chunks with
      | .error r => .error r
      | .ok d => parseMultipartGo (image ++ d) label rest
    else if name = "label" then
      match readChunks chunks with
      | .error r => .error r
      | .ok d => parseMultipartGo image (some (utf8LossyStr d)) rest
    else .error ⟨400, .text ("Unexpected field: " ++ name)⟩

/-- `parse_multipart` (main.rs lines 16–59): image bytes plus optional
label. -/
def parse_multipart (items : List MPItem) : Except HttpResp (List Nat × Option String) :=
  parseMultipartGo [] none items

/-- The outer loop of `parse_multipart_predict` (image field only). -/
def parseMultipartPredictGo (image : List Nat) :
    List MPItem → Except HttpResp (List Nat)
  | [] =>
    if image.isEmpty then .error ⟨400, .text "No image data received"⟩
    else .ok image
  | .err e :: _ => .error ⟨400, .text ("Multipart error: " ++ e)⟩
  | .field name chunks :: rest =>
    if name = "image" then
      match readChunks chunks with
      | .error r => .error r
      | .ok d => parseMultipartPredictGo (image ++ d) rest
    else .error ⟨400, .text ("Unexpected field: " ++ name)⟩

/-- `parse_multipart_predict` (main.rs lines 62–93). -/
def parse_multipart_predict (items : List MPItem) : Except HttpResp (List Nat) :=
  parseMultipartPredictGo [] items

/-! ## Request Orchestrators -/

/-- `Output` of `std::process::Command` as the handler consumes it:
exit status plus lossily-decoded stdout/stderr (modelled as strings). -/
structure ProcOutput where
  exitCode : Int
  stdout : String
  stderr : String
  deriving DecidableEq, Repr

/-- The environment of one `/predict` request: the multipart stream and
the outcome of each external effect the handler may attempt.
`writeErr`/`removeErr` are `none` on success; `spawn` is `.error e` when
the classifier process fails to start. -/
structure PredictEnv where
  items : List MPItem
  writeErr : Option String
  spawn : Except String ProcOutput
  removeErr : Option String
  deriving DecidableEq, Repr

/-- `predict_image_route` (main.rs lines 207–287).  `requestId` is the
`Utc::now().timestamp_millis()` taken at entry. -/
def predict_image_route (requestId : Int) (env : PredictEnv) : RouteOut :=
  let log0 := [LogLine.info "Received request to /predict"]
  match parse_multipart_predict env.items with
  | .error resp => ⟨resp, [], log0 ++ [.error "Failed to parse multipart payload"]⟩
  | .ok image_bytes =>
    let log1 := log0 ++
      [LogLine.info ("Image received: " ++ natReprStr image_bytes.length ++ " bytes")]
    let temp := tempPath requestId
    match env.writeErr with
    | some e =>
      ⟨⟨500, .text ("Failed to write temporary file: " ++ e)⟩, [],
        log1 ++ [.error ("Failed to write temporary file: " ++ e)]⟩
    | none =>
      let log2 := log1 ++ [LogLine.info ("Temporary file created: " ++ temp)]
      let evs0 := [FsEv.writeTemp temp]
      match env.spawn with
      | .error e =>
        -- `fs::remove_file(&temp_path).ok();` — deletion attempted, its
        -- outcome silently discarded
        ⟨⟨500, .text ("Failed to execute prediction: " ++ e)⟩,
          evs0 ++ [.removeTemp temp],
          log2 ++ [.error ("Failed to execute predict.py: " ++ e)]⟩
      | .ok out =>
        let evs1 := evs0 ++ [FsEv.removeTemp temp]
        let log3 := log2 ++
          (match env.removeErr with
           | some e => [LogLine.error ("Failed to clean up temp file: " ++ e)]
           | none => [])
        if out.exitCode ≠ 0 then
          ⟨⟨500, .text ("Prediction failed: " ++ out.stderr)⟩, evs1,
            log3 ++ [.error ("Prediction script failed: " ++ out.stderr)]⟩
        else
          let pr := parse_prediction_output out.stdout.toList
          ⟨⟨200, .predJson pr⟩, evs1,
            log3 ++ [.info "Prediction completed successfully", .infoReturning pr]⟩

/-- ASCII single quote, kept out of string literals. -/
def sQuote : String := String.mk [Char.ofNat 39]

/-- The invalid-label message
`Label must be either 'match_ready' or 'not_match_ready'`. -/
def labelEnumMsg : String :=
  "Label must be either " ++ sQuote ++ "match_ready" ++ sQuote ++ " or " ++ sQuote
    ++ "not_match_ready" ++ sQuote

/-- The environment of one `/training` request.  `requestId` is
`Utc::now().timestamp_millis()` at entry, `fileTime` the `Utc::now()`
used for the filename timestamp, `logTime` the `Utc::now()` stored in
the audit record. -/
structure TrainEnv where
  items : List MPItem
  requestId : Int
  mkdirErr : Option String
  fileTime : DateTime
  writeErr : Option String
  logTime : DateTime
  appendErr : Option String
  deriving DecidableEq, Repr

/-- `training_route` (main.rs lines 97–203). -/
def training_route (env : TrainEnv) : RouteOut :=
  let log0 := [LogLine.info "Received request to /training"]
  match parse_multipart env.items with
  | .error resp => ⟨resp, [], log0 ++ [.error "Failed to parse multipart payload"]⟩
  | .ok (image_bytes, labelOpt) =>
    match labelOpt with
    | none =>
      ⟨⟨400, .text "Label is required for training data"⟩, [],
        log0 ++ [.error "No label provided"]⟩
    | some label =>
      if label ≠ "match_ready" ∧ label ≠ "not_match_ready" then
        ⟨⟨400, .text labelEnumMsg⟩, [],
          log0 ++ [.error ("Invalid label: " ++ label)]⟩
      else
        let log1 := log0 ++
          [LogLine.info ("Training image received: " ++ natReprStr image_bytes.length
            ++ " bytes, label: " ++ label)]
        let label_dir := "training_data/" ++ label
        match env.mkdirErr with
        | some e =>
          ⟨⟨500, .text ("Failed to create training directory: " ++ e)⟩,
            [FsEv.createDirAll label_dir],
            log1 ++ [.error ("Failed to create training directory: " ++ e)]⟩
        | none =>
          let filename := trainingFileName env.fileTime env.requestId
          let file_path := label_dir ++ "/" ++ filename
          let evs0 := [FsEv.createDirAll label_dir]
          match env.writeErr with
          | some e =>
            ⟨⟨500, .text ("Failed to write training image: " ++ e)⟩,
              evs0 ++ [.writeTraining file_path],
              log1 ++ [.error ("Failed to write training image: " ++ e)]⟩
          | none =>
            let log2 := log1 ++ [LogLine.info ("Training image saved: " ++ file_path)]
            let record : TrainingRecord :=
              ⟨env.logTime, env.requestId, label, filename, file_path, image_bytes.length⟩
            let evs1 := evs0 ++
              [FsEv.writeTraining file_path,
               FsEv.appendLog "training_data/training_log.jsonl" record]
            let log3 := log2 ++
              (match env.appendErr with
               | some e => [LogLine.error ("Failed to write to training log: " ++ e)]
               | none => [])
            ⟨⟨200, .trainJson filename label env.requestId⟩, evs1,
              log3 ++ [.info ("Training data saved successfully: " ++ filename)]⟩

/-! ## Specification-side helpers for the Multipart Decoder -/

/-- The concatenation of the successfully-read chunks of one field. -/
def okBytes : List (Except String (List Nat)) → List Nat
  | [] => []
  | .ok d :: rest => d ++ okBytes rest
  | .error _ :: rest => okBytes rest

/-- A well-formed item for the training decoder: a field named `image`
or `label` whose chunks all read successfully. -/
def itemWellFormedT : MPItem → Bool
  | .err _ => false
  | .field name chunks => (name = "image" ∨ name = "label") && chunks.all (fun c => c.isOk)

/-- A well-formed item for the predict decoder: a field named `image`
whose chunks all read successfully. -/
def itemWellFormedP : MPItem → Bool
  | .err _ => false
  | .field name chunks => name = "image" && chunks.all (fun c => c.isOk)

/-- An all-chunks-ok field named `image`. -/
def isOkImageField : MPItem → Bool
  | .err _ => false
  | .field name chunks => name = "image" && chunks.all (fun c => c.isOk)

/-- The bytes of all `image` parts of the stream, in stream order. -/
def imageBytes : List MPItem → List Nat
  | [] => []
  | .err _ :: rest => imageBytes rest
  | .field name chunks :: rest =>
    (if name = "image" then okBytes chunks else []) ++ imageBytes rest

/-- The label produced by a full scan: the last `label` field wins. -/
def lastLabel (lbl : Option String) : List MPItem → Option String
  | [] => lbl
  | .err _ :: rest => lastLabel lbl rest
  | .field name chunks :: rest =>
    lastLabel (if name = "label" then some (utf8LossyStr (okBytes chunks)) else lbl) rest

theorem readChunks_of_all_ok (chunks : List (Except String (List Nat)))
    (h : chunks.all (fun c => c.isOk) = true) : readChunks chunks = .ok (okBytes chunks) := by
  induction chunks with
  | nil => rfl
  | cons c rest ih =>
    rw [List.all_cons, Bool.and_eq_true] at h
    match c with
    | .ok d => rw [readChunks, ih h.2, okBytes]
    | .error e => simp [Except.isOk, Except.toBool] at h

theorem parseMultipartGo_spec (items : List MPItem) :
    ∀ image lbl, (∀ it ∈ items, itemWellFormedT it = true) →
      parseMultipartGo image lbl items =
        if (image ++ imageBytes items).isEmpty then
          .error ⟨400, .text "No image data received"⟩
        else .ok (image ++ imageBytes items, lastLabel lbl items) := by
  induction items with
  | nil => intro image lbl _; simp [parseMultipartGo, imageBytes, lastLabel]
  | cons it rest ih =>
    intro image lbl h
    have hit := h it (List.mem_cons_self it rest)
    have hrest : ∀ x ∈ rest, itemWellFormedT x = true :=
      fun x hx => h x (List.mem_cons_of_mem it hx)
    match it with
    | .err e => simp [itemWellFormedT] at hit
    | .field name chunks =>
      rw [itemWellFormedT, Bool.and_eq_true, decide_eq_true_iff] at hit
      obtain ⟨hname, hok⟩ := hit
      rcases hname with hname | hname
      · subst hname
        rw [parseMultipartGo, if_pos rfl, readChunks_of_all_ok chunks hok]
        show parseMultipartGo (image ++ okBytes chunks) lbl rest = _
        rw [ih (image ++ okBytes chunks) lbl hrest, imageBytes, lastLabel]
        simp [List.append_assoc]
      · subst hname
        rw [parseMultipartGo, if_neg (by decide), if_pos rfl,
          readChunks_of_all_ok chunks hok]
        show parseMultipartGo image (some (utf8LossyStr (okBytes chunks))) rest = _
        rw [ih image _ hrest, imageBytes, lastLabel]
        simp

theorem parseMultipartPredictGo_spec (items : List MPItem) :
    ∀ image, (∀ it ∈ items, itemWellFormedP it = true) →
      parseMultipartPredictGo image items =
        if (image ++ imageBytes items).isEmpty then
          .error ⟨400, .text "No image data received"⟩
        else .ok (image ++ imageBytes items) := by
  induction items with
  | nil => intro image _; simp [parseMultipartPredictGo, imageBytes]
  | cons it rest ih =>
    intro image h
    have hit := h it (List.mem_cons_self it rest)
    have hrest : ∀ x ∈ rest, itemWellFormedP x = true :=
      fun x hx => h x (List.mem_cons_of_mem it hx)
    match it with
    | .err e => simp [itemWellFormedP] at hit
    | .field name chunks =>
      rw [itemWellFormedP, Bool.and_eq_true, decide_eq_true_iff] at hit
      obtain ⟨hname, hok⟩ := hit
      subst hname
      rw [parseMultipartPredictGo, if_pos rfl, readChunks_of_all_ok chunks hok]
      show parseMultipartPredictGo (image ++ okBytes chunks) rest = _
      rw [ih (image ++ okBytes chunks) hrest, imageBytes]
      simp [List.append_assoc]

theorem lastLabel_of_no_label (items : List MPItem)
    (h : ∀ it ∈ items, isOkImageField it = true) :
    ∀ lbl, lastLabel lbl items = lbl := by
  induction items with
  | nil => intro lbl; rfl
  | cons it rest ih =>
    intro lbl
    have hit := h it (List.mem_cons_self it rest)
    have hrest : ∀ x ∈ rest, isOkImageField x = true :=
      fun x hx => h x (List.mem_cons_of_mem it hx)
    match it with
    | .err e => simp [isOkImageField] at hit
    | .field name chunks =>
      rw [isOkImageField, Bool.and_eq_true, decide_eq_true_iff] at hit
      rw [lastLabel, if_neg (by rw [hit.1]; decide)]
      exact ih hrest lbl

/-- C8: a fully-consumed multipart body with an empty image buffer is
rejected with `BadRequest("No image data received")` by both decoders,
however well-formed the individual parts are. -/
theorem multipart_empty_image_rejected (items : List MPItem) :
    ((∀ it ∈ items, itemWellFormedT it = true) → imageBytes items = [] →
      parse_multipart items = .error ⟨400, .text "No image data received"⟩) ∧
    ((∀ it ∈ items, itemWellFormedP it = true) → imageBytes items = [] →
      parse_multipart_predict items = .error ⟨400, .text "No image data received"⟩) := by
  constructor
  · intro hwf hempty
    rw [parse_multipart, parseMultipartGo_spec items [] none hwf, hempty]
    simp
  · intro hwf hempty
    rw [parse_multipart_predict, parseMultipartPredictGo_spec items [] hwf, hempty]
    simp

/-- Witness for C8 at a concrete stream: two well-formed parts, an empty
`image` field and (for the training decoder) a `label` field. -/
theorem multipart_empty_image_rejected_witness :
    ((∀ it ∈ [MPItem.field "image" [.ok []], MPItem.field "label" [.ok [97]]],
        itemWellFormedT it = true) ∧
      parse_multipart [MPItem.field "image" [.ok []], MPItem.field "label" [.ok [97]]] =
        .error ⟨400, .text "No image data received"⟩) ∧
    ((∀ it ∈ [MPItem.field "image" [.ok [], .ok []]], itemWellFormedP it = true) ∧
      parse_multipart_predict [MPItem.field "image" [.ok [], .ok []]] =
        .error ⟨400, .text "No image data received"⟩) :=
  ⟨⟨by decide,
      (multipart_empty_image_rejected _).1 (by decide) (by decide)⟩,
    ⟨by decide,
      (multipart_empty_image_rejected _).2 (by decide) (by decide)⟩⟩

/-- C10: when every part of the stream is a well-formed part named
`image`, both decoders concatenate the bytes of all those parts in
stream order into the single image buffer (no rejection, no
keep-only-one). -/
theorem multipart_concatenates_image_parts (items : List MPItem)
    (h : ∀ it ∈ items, isOkImageField it = true)
    (hne : imageBytes items ≠ []) :
    parse_multipart items = .ok (imageBytes items, none) ∧
    parse_multipart_predict items = .ok (imageBytes items) := by
  have hT : ∀ it ∈ items, itemWellFormedT it = true := by
    intro it hit
    have := h it hit
    match it with
    | .err e => simp [isOkImageField] at this
    | .field name chunks =>
      rw [isOkImageField, Bool.and_eq_true, decide_eq_true_iff] at this
      rw [itemWellFormedT, Bool.and_eq_true, decide_eq_true_iff]
      exact ⟨Or.inl this.1, this.2⟩
  have hP : ∀ it ∈ items, itemWellFormedP it = true := by
    intro it hit
    have := h it hit
    match it with
    | .err e => simp [isOkImageField] at this
    | .field name chunks => exact this
  constructor
  · rw [parse_multipart, parseMultipartGo_spec items [] none hT,
      lastLabel_of_no_label items h]
    simp [List.isEmpty_iff, hne]
  · rw [parse_multipart_predict, parseMultipartPredictGo_spec items [] hP]
    simp [List.isEmpty_iff, hne]

/-- Witness for C10: two `image` parts with bytes `[1]` and `[2, 3]`
decode to the concatenation `[1, 2, 3]`. -/
theorem multipart_concatenates_image_parts_witness :
    imageBytes [MPItem.field "image" [.ok [1]], MPItem.field "image" [.ok [2], .ok [3]]] =
        [1, 2, 3] ∧
      parse_multipart [MPItem.field "image" [.ok [1]], MPItem.field "image" [.ok [2], .ok [3]]] =
        .ok ([1, 2, 3], none) ∧
      parse_multipart_predict
          [MPItem.field "image" [.ok [1]], MPItem.field "image" [.ok [2], .ok [3]]] =
        .ok [1, 2, 3] := by
  have h := multipart_concatenates_image_parts
    [MPItem.field "image" [.ok [1]], MPItem.field "image" [.ok [2], .ok [3]]]
    (by decide) (by decide)
  exact ⟨by decide, by rw [h.1]; decide, by rw [h.2]; decide⟩

/-! ## Facts about `findSub` / `containsSub` -/

theorem findSub_isSome_iff_occurs (p : List Char) (s : List Char) :
    (findSub p s).isSome = true ↔ p <:+: s := by
  induction s with
  | nil =>
    rw [findSub]
    split
    · next h =>
      have := List.prefix_nil.mp (List.isPrefixOf_iff_prefix.mp h)
      simp [this]
    · next h =>
      simp only [Option.isSome_none, Bool.false_eq_true, false_iff]
      intro hinf
      obtain rfl := List.infix_nil.mp hinf
      exact h (by decide)
  | cons c t ih =>
    rw [findSub]
    split
    · next h =>
      simp only [Option.isSome_some, true_iff]
      exact (List.isPrefixOf_iff_prefix.mp h).isInfix
    · next h =>
      have hmap : (Option.map (fun x => x + 1) (findSub p t)).isSome = (findSub p t).isSome := by
        cases findSub p t <;> rfl
      rw [hmap, List.infix_cons_iff, ih]
      constructor
      · exact Or.inr
      · rintro (hpre | hinf)
        · exact absurd (List.isPrefixOf_iff_prefix.mpr hpre) h
        · exact hinf

theorem containsSub_iff_occurs (p s : List Char) : containsSub p s = true ↔ p <:+: s :=
  findSub_isSome_iff_occurs p s

theorem findSub_bound (p s : List Char) (i : Nat) (h : findSub p s = some i) :
    i + p.length ≤ s.length := by
  induction s generalizing i with
  | nil =>
    rw [findSub] at h
    split at h
    · next hp =>
      cases h
      have := List.prefix_nil.mp (List.isPrefixOf_iff_prefix.mp hp)
      simp [this]
    · cases h
  | cons c t ih =>
    rw [findSub] at h
    split at h
    · next hp =>
      cases h
      simpa using (List.isPrefixOf_iff_prefix.mp hp).length_le
    · next hp =>
      obtain ⟨j, hj, rfl⟩ := Option.map_eq_some'.mp h
      have := ih j hj
      simp only [List.length_cons]
      omega

theorem findCharIdx_bound (c : Char) (s : List Char) (i : Nat)
    (h : findCharIdx c s = some i) : i < s.length :=
  (List.findIdx?_eq_some_iff_findIdx_eq.mp h).1

/-- C2 (code bug): the parser maps the stdout line
`Final Prediction: NOT_MATCH_READY` to the label `match_ready`; indeed
every line containing `NOT_MATCH_READY` also contains `MATCH_READY`, so
the `not_match_ready` arm of `parse_prediction_output` is unreachable
and such lines always take the `match_ready` arm. -/
theorem not_match_ready_reported_as_match_ready :
    (parse_prediction_output "Final Prediction: NOT_MATCH_READY".toList).prediction =
        "match_ready" ∧
      ∀ line : List Char, containsSub "NOT_MATCH_READY".toList line = true →
        containsSub "MATCH_READY".toList line = true := by
  constructor
  · decide
  · intro line h
    rw [containsSub_iff_occurs] at h ⊢
    exact List.IsInfix.trans (by decide) h

/-- Witness for C2's universally-quantified part at a concrete line. -/
theorem not_match_ready_reported_as_match_ready_witness :
    containsSub "NOT_MATCH_READY".toList "a NOT_MATCH_READY b".toList = true ∧
      containsSub "MATCH_READY".toList "a NOT_MATCH_READY b".toList = true :=
  ⟨by decide,
    not_match_ready_reported_as_match_ready.2 "a NOT_MATCH_READY b".toList (by decide)⟩

/-! ## The Result Parser never panics and defaults to `unknown`/`0.0` -/

theorem sliceFrom?_of_le (l : List Char) (i : Nat) (h : i ≤ l.length) :
    sliceFrom? l i = some (l.drop i) := by
  rw [sliceFrom?, if_pos h]

theorem sliceTo?_of_le (l : List Char) (i : Nat) (h : i ≤ l.length) :
    sliceTo? l i = some (l.take i) := by
  rw [sliceTo?, if_pos h]

theorem parseLineChk_eq (st : ParseSt) (line : List Char) :
    parseLineChk st line = some (parseLine st line) := by
  rw [parseLineChk, parseLine]
  split_ifs
  · rfl
  · rfl
  · rfl
  · -- Confidence branch
    cases hfind : findSub "Confidence: ".toList line with
    | none => simp
    | some start =>
      have hb : start + 12 ≤ line.length := by
        have := findSub_bound _ _ _ hfind
        simpa using this
      simp only [sliceFrom?_of_le line _ hb]
      cases hch : findCharIdx ' ' (line.drop (start + 12)) with
      | none => simp
      | some e =>
        have he : e ≤ (line.drop (start + 12)).length :=
          le_of_lt (findCharIdx_bound _ _ _ hch)
        simp only [sliceTo?_of_le _ _ he]
        cases rustParseF64 ((line.drop (start + 12)).take e) <;> simp
  · -- match_ready probability branch
    cases hfind : findSub "match_ready: ".toList line with
    | none => simp
    | some start =>
      have hb : start + 13 ≤ line.length := by
        have := findSub_bound _ _ _ hfind
        simpa using this
      simp only [sliceFrom?_of_le line _ hb]
      cases hch : findCharIdx ' ' (line.drop (start + 13)) with
      | none => simp
      | some e =>
        have he : e ≤ (line.drop (start + 13)).length :=
          le_of_lt (findCharIdx_bound _ _ _ hch)
        simp only [sliceTo?_of_le _ _ he]
        cases rustParseF64 ((line.drop (start + 13)).take e) <;> simp
  · -- not_match_ready probability branch
    cases hfind : findSub "not_match_ready: ".toList line with
    | none => simp
    | some start =>
      have hb : start + 17 ≤ line.length := by
        have := findSub_bound _ _ _ hfind
        simpa using this
      simp only [sliceFrom?_of_le line _ hb]
      cases hch : findCharIdx ' ' (line.drop (start + 17)) with
      | none => simp
      | some e =>
        have he : e ≤ (line.drop (start + 17)).length :=
          le_of_lt (findCharIdx_bound _ _ _ hch)
        simp only [sliceTo?_of_le _ _ he]
        cases rustParseF64 ((line.drop (start + 17)).take e) <;> simp
  · -- Image branch
    cases hfind : findSub "Image: ".toList line with
    | none => simp
    | some start =>
      have hb : start + 7 ≤ line.length := by
        have := findSub_bound _ _ _ hfind
        simpa using this
      simp only [sliceFrom?_of_le line _ hb]
      cases hch : findCharIdx '\n' (line.drop (start + 7)) with
      | none => simp
      | some e =>
        have he : e ≤ (line.drop (start + 7)).length :=
          le_of_lt (findCharIdx_bound _ _ _ hch)
        simp only [sliceTo?_of_le _ _ he]
  · rfl

theorem foldlM_parseLineChk (lines : List (List Char)) :
    ∀ st : ParseSt, List.foldlM parseLineChk st lines = some (List.foldl parseLine st lines) := by
  induction lines with
  | nil => intro st; rfl
  | cons l rest ih =>
    intro st
    rw [List.foldlM_cons, parseLineChk_eq]
    show List.foldlM parseLineChk (parseLine st l) rest = _
    rw [ih, List.foldl_cons]

/-- When is a line accepted by the label arm of the parser loop. -/
def lineRecognizesPrediction (line : List Char) : Bool :=
  containsSub "Final Prediction:".toList line &&
    (containsSub "MATCH_READY".toList line || containsSub "NOT_MATCH_READY".toList line)

/-- When does a line assign the confidence: no `Final Prediction:`
marker, a `Confidence:` marker, and a space-terminated value after
`Confidence: ` that parses as `f64`. -/
def lineParsesConfidence (line : List Char) : Bool :=
  !containsSub "Final Prediction:".toList line &&
    containsSub "Confidence:".toList line &&
    (match findSub "Confidence: ".toList line with
     | some start =>
       (match findCharIdx ' ' (line.drop (start + 12)) with
        | some e => (rustParseF64 ((line.drop (start + 12)).take e)).isSome
        | none => false)
     | none => false)

theorem parseLine_prediction_of_unrecognized (st : ParseSt) (line : List Char)
    (h : lineRecognizesPrediction line = false) :
    (parseLine st line).prediction = st.prediction := by
  rw [lineRecognizesPrediction, Bool.and_eq_false_iff] at h
  rw [parseLine]
  split_ifs with h1 h2 h3
  · rcases h with h | h
    · rw [h1] at h; cases h
    · rw [Bool.or_eq_false_iff] at h; rw [h.1] at h2; cases h2
  · rcases h with h | h
    · rw [h1] at h; cases h
    · rw [Bool.or_eq_false_iff] at h; rw [h.2] at h3; cases h3
  · rfl
  · cases findSub "Confidence: ".toList line with
    | none => rfl
    | some start =>
      simp only []
      cases findCharIdx ' ' (line.drop (start + 12)) with
      | none => rfl
      | some e =>
        simp only []
        cases rustParseF64 ((line.drop (start + 12)).take e) <;> rfl
  · cases findSub "match_ready: ".toList line with
    | none => rfl
    | some start =>
      simp only []
      cases findCharIdx ' ' (line.drop (start + 13)) with
      | none => rfl
      | some e =>
        simp only []
        cases rustParseF64 ((line.drop (start + 13)).take e) <;> rfl
  · cases findSub "not_match_ready: ".toList line with
    | none => rfl
    | some start =>
      simp only []
      cases findCharIdx ' ' (line.drop (start + 17)) with
      | none => rfl
      | some e =>
        simp only []
        cases rustParseF64 ((line.drop (start + 17)).take e) <;> rfl
  · cases findSub "Image: ".toList line with
    | none => rfl
    | some start =>
      simp only []
      cases findCharIdx '\n' (line.drop (start + 7)) with
      | none => rfl
      | some e => rfl
  · rfl

theorem parseLine_confidence_of_unparsed (st : ParseSt) (line : List Char)
    (h : lineParsesConfidence line = false) :
    (parseLine st line).confidence = st.confidence := by
  rw [lineParsesConfidence] at h
  rw [parseLine]
  split_ifs with h1 h2 h3 h4
  · rfl
  · rfl
  · rfl
  · cases hfind : findSub "Confidence: ".toList line with
    | none => rfl
    | some start =>
      simp only [hfind] at h
      simp only []
      cases hch : findCharIdx ' ' (line.drop (start + 12)) with
      | none => rfl
      | some e =>
        simp only [hch] at h
        simp only []
        cases hparse : rustParseF64 ((line.drop (start + 12)).take e) with
        | none => rfl
        | some c =>
          rw [Bool.not_eq_true] at h1
          rw [hparse, h1, h4] at h
          simp at h
  · cases findSub "match_ready: ".toList line with
    | none => rfl
    | some start =>
      simp only []
      cases findCharIdx ' ' (line.drop (start + 13)) with
      | none => rfl
      | some e =>
        simp only []
        cases rustParseF64 ((line.drop (start + 13)).take e) <;> rfl
  · cases findSub "not_match_ready: ".toList line with
    | none => rfl
    | some start =>
      simp only []
      cases findCharIdx ' ' (line.drop (start + 17)) with
      | none => rfl
      | some e =>
        simp only []
        cases rustParseF64 ((line.drop (start + 17)).take e) <;> rfl
  · cases findSub "Image: ".toList line with
    | none => rfl
    | some start =>
      simp only []
      cases findCharIdx '\n' (line.drop (start + 7)) with
      | none => rfl
      | some e => rfl
  · rfl

theorem foldl_parseLine_default (lines : List (List Char)) :
    ∀ st : ParseSt,
      (∀ l ∈ lines, lineRecognizesPrediction l = false ∧ lineParsesConfidence l = false) →
      (lines.foldl parseLine st).prediction = st.prediction ∧
        (lines.foldl parseLine st).confidence = st.confidence := by
  induction lines with
  | nil => intro st _; exact ⟨rfl, rfl⟩
  | cons l rest ih =>
    intro st h
    have hl := h l (List.mem_cons_self l rest)
    have hrest := fun x hx => h x (List.mem_cons_of_mem l hx)
    rw [List.foldl_cons]
    obtain ⟨hp, hc⟩ := ih (parseLine st l) hrest
    exact ⟨hp.trans (parseLine_prediction_of_unrecognized st l hl.1),
      hc.trans (parseLine_confidence_of_unparsed st l hl.2)⟩

/-- C3: the Result Parser is total — the bounds-checked variant never
panics and agrees with the parser on every input — and when no line of
the input carries a recognized prediction or a parseable confidence,
the result is `{"unknown", 0.0}`. -/
theorem parse_prediction_output_total (s : List Char) :
    parse_prediction_output_chk s = some (parse_prediction_output s) ∧
      ((∀ l ∈ rustLines s,
          lineRecognizesPrediction l = false ∧ lineParsesConfidence l = false) →
        parse_prediction_output s = ⟨"unknown", .finite 0⟩) := by
  constructor
  · rw [parse_prediction_output_chk, parse_prediction_output,
      foldlM_parseLineChk (rustLines s) parseStInit, Option.map_some']
  · intro h
    obtain ⟨hp, hc⟩ := foldl_parseLine_default (rustLines s) parseStInit h
    rw [parse_prediction_output]
    exact congrArg₂ PredictionResult.mk hp hc

/-- Witness for C3 at a concrete pattern-free input. -/
theorem parse_prediction_output_total_witness :
    parse_prediction_output_chk "hello\nworld 42\n".toList = some ⟨"unknown", .finite 0⟩ ∧
      parse_prediction_output "hello\nworld 42\n".toList = ⟨"unknown", .finite 0⟩ := by
  have h := parse_prediction_output_total "hello\nworld 42\n".toList
  have h2 := h.2 (by decide)
  exact ⟨by rw [h.1, h2], h2⟩

/-! ## Predict orchestrator claims -/

/-- C5: a non-zero exit status of the external process fails the request
with `InternalServerError` carrying the captured stderr, and the
process stdout is ignored — replacing it changes nothing in the
response, the filesystem effects or the logs. -/
theorem predict_nonzero_exit_is_500_stderr (requestId : Int) (env : PredictEnv)
    (bytes : List Nat) (out : ProcOutput)
    (hp : parse_multipart_predict env.items = .ok bytes)
    (hw : env.writeErr = none)
    (hs : env.spawn = .ok out)
    (hc : out.exitCode ≠ 0) :
    (predict_image_route requestId env).resp =
        ⟨500, .text ("Prediction failed: " ++ out.stderr)⟩ ∧
      ∀ s' : String,
        predict_image_route requestId
            { env with spawn := .ok { out with stdout := s' } } =
          predict_image_route requestId env := by
  constructor
  · rw [predict_image_route]
    simp only [hp, hw, hs, if_pos hc]
  · intro s'
    rw [predict_image_route, predict_image_route]
    simp only [hp, hw, hs, if_pos hc]

/-- Witness for C5 at a concrete failing environment. -/
theorem predict_nonzero_exit_is_500_stderr_witness :
    (predict_image_route 3
          ⟨[MPItem.field "image" [.ok [1]]], none, .ok ⟨1, "ignored", "boom"⟩, none⟩).resp =
        ⟨500, .text ("Prediction failed: " ++ "boom")⟩ ∧
      predict_image_route 3
          ⟨[MPItem.field "image" [.ok [1]]], none, .ok ⟨1, "other stdout", "boom"⟩, none⟩ =
        predict_image_route 3
          ⟨[MPItem.field "image" [.ok [1]]], none, .ok ⟨1, "ignored", "boom"⟩, none⟩ := by
  have h := predict_nonzero_exit_is_500_stderr 3
    ⟨[MPItem.field "image" [.ok [1]]], none, .ok ⟨1, "ignored", "boom"⟩, none⟩
    [1] ⟨1, "ignored", "boom"⟩ (by decide) rfl rfl (by decide)
  exact ⟨h.1, h.2 "other stdout"⟩

/-- Environment with a spawn failure and a failing scratch-file
deletion. -/
def predictEnvSpawnFail : PredictEnv :=
  ⟨[MPItem.field "image" [.ok [1]]], none, .error "no such file", some "permission denied"⟩

/-- C4 counterexample: on the process-spawn-failure exit path the
scratch-file deletion is attempted (and here fails), but the failure is
*not* logged — `fs::remove_file(&temp_path).ok()` silently discards it —
contradicting the claim that a deletion failure is logged on every exit
path. -/
theorem predict_remove_failure_not_logged_on_spawn_failure :
    FsEv.removeTemp (tempPath 2) ∈ (predict_image_route 2 predictEnvSpawnFail).events ∧
      predictEnvSpawnFail.removeErr = some "permission denied" ∧
      (predict_image_route 2 predictEnvSpawnFail).logs =
        [.info "Received request to /predict",
         .info "Image received: 1 bytes",
         .info "Temporary file created: /tmp/cricket_ball_2.jpg",
         .error "Failed to execute predict.py: no such file"] ∧
      LogLine.error "Failed to clean up temp file: permission denied" ∉
        (predict_image_route 2 predictEnvSpawnFail).logs := by
  decide

/-- C4 (amended): whenever the scratch-file write succeeds, the deletion
of the scratch file is attempted on every subsequent exit path before
the response, and neither the response nor the filesystem effects depend
on the deletion outcome; the deletion failure is logged on the paths
where the process actually ran (the spawn-failure path discards it
silently, see the counterexample). -/
theorem predict_scratch_always_removed (requestId : Int) (env : PredictEnv)
    (bytes : List Nat)
    (hp : parse_multipart_predict env.items = .ok bytes)
    (hw : env.writeErr = none) :
    FsEv.removeTemp (tempPath requestId) ∈ (predict_image_route requestId env).events ∧
      (∀ r : Option String,
        (predict_image_route requestId { env with removeErr := r }).resp =
            (predict_image_route requestId env).resp ∧
          (predict_image_route requestId { env with removeErr := r }).events =
            (predict_image_route requestId env).events) ∧
      (∀ out : ProcOutput, ∀ e : String, env.spawn = .ok out → env.removeErr = some e →
        LogLine.error ("Failed to clean up temp file: " ++ e) ∈
          (predict_image_route requestId env).logs) := by
  refine ⟨?_, ?_, ?_⟩
  · rw [predict_image_route]
    simp only [hp, hw]
    cases env.spawn with
    | error e => simp
    | ok out =>
      by_cases hc : out.exitCode = 0 <;> simp [hc]
  · intro r
    rw [predict_image_route, predict_image_route]
    simp only [hp, hw]
    cases env.spawn with
    | error e => exact ⟨rfl, rfl⟩
    | ok out =>
      by_cases hc : out.exitCode = 0 <;> simp [hc]
  · intro out e hs he
    rw [predict_image_route]
    simp only [hp, hw, hs, he]
    by_cases hc : out.exitCode = 0 <;> simp [hc]

/-- Witness for C4's amended theorem at a concrete environment. -/
theorem predict_scratch_always_removed_witness :
    FsEv.removeTemp (tempPath 7) ∈
        (predict_image_route 7
          ⟨[MPItem.field "image" [.ok [1]]], none, .ok ⟨0, "", ""⟩, some "perm"⟩).events ∧
      LogLine.error ("Failed to clean up temp file: " ++ "perm") ∈
        (predict_image_route 7
          ⟨[MPItem.field "image" [.ok [1]]], none, .ok ⟨0, "", ""⟩, some "perm"⟩).logs := by
  have h := predict_scratch_always_removed 7
    ⟨[MPItem.field "image" [.ok [1]]], none, .ok ⟨0, "", ""⟩, some "perm"⟩
    [1] (by decide) rfl
  exact ⟨h.1, h.2.2 ⟨0, "", ""⟩ "perm" rfl rfl⟩

/-- Environment whose mock process exits 0 printing the spec's standard
line. -/
def predictEnvStdLine : PredictEnv :=
  ⟨[MPItem.field "image" [.ok [1]]], none,
    .ok ⟨0, "Prediction: match_ready; Confidence: 0.87", ""⟩, none⟩

/-- C1 counterexample: for stdout
`Prediction: match_ready; Confidence: 0.87` the handler answers 200 with
`{"prediction":"unknown","confidence":0.0}` — not
`{"prediction":"match_ready","confidence":0.87}` — because the parser
looks for `Final Prediction:` (not `Prediction: `…`;`) and only accepts
a confidence value terminated by a space character. -/
theorem predict_spec_line_parses_to_unknown :
    (predict_image_route 1 predictEnvStdLine).resp =
        ⟨200, .predJson ⟨"unknown", .finite 0⟩⟩ ∧
      (⟨200, RespBody.predJson ⟨"unknown", .finite 0⟩⟩ : HttpResp) ≠
        ⟨200, .predJson ⟨"match_ready", .finite (mkRat 87 100)⟩⟩ := by
  decide

/-- C1 (amended): for every predict request whose decode succeeds and
whose process exits 0 with stdout
`Prediction: match_ready; Confidence: 0.87`, the handler returns 200
with body `{"prediction":"unknown","confidence":0.0}`; indeed that line
leaves the parser state entirely unchanged (no `Final Prediction:`
marker, and the value after `Confidence: ` is not followed by a
space). -/
theorem predict_spec_line_yields_unknown (requestId : Int) (env : PredictEnv)
    (bytes : List Nat) (out : ProcOutput)
    (hp : parse_multipart_predict env.items = .ok bytes)
    (hw : env.writeErr = none)
    (hs : env.spawn = .ok out)
    (hc : out.exitCode = 0)
    (ho : out.stdout = "Prediction: match_ready; Confidence: 0.87") :
    (predict_image_route requestId env).resp =
        ⟨200, .predJson ⟨"unknown", .finite 0⟩⟩ ∧
      ∀ st : ParseSt,
        parseLine st "Prediction: match_ready; Confidence: 0.87".toList = st := by
  constructor
  · rw [predict_image_route]
    simp only [hp, hw, hs, hc, ne_eq, not_true_eq_false, if_false, ho]
    rw [show parse_prediction_output
        "Prediction: match_ready; Confidence: 0.87".toList =
      ⟨"unknown", .finite 0⟩ from by decide]
  · intro st
    rw [parseLine]
    rw [if_neg (by decide), if_pos (by decide)]
    simp only [show findSub "Confidence: ".toList
        "Prediction: match_ready; Confidence: 0.87".toList = some 25 from by decide]
    rw [show findCharIdx ' '
        (List.drop (25 + 12) "Prediction: match_ready; Confidence: 0.87".toList) =
      none from by decide]

/-- Witness for C1's amended theorem at the concrete environment. -/
theorem predict_spec_line_yields_unknown_witness :
    (predict_image_route 1 predictEnvStdLine).resp =
        ⟨200, .predJson ⟨"unknown", .finite 0⟩⟩ ∧
      parseLine parseStInit "Prediction: match_ready; Confidence: 0.87".toList =
        parseStInit := by
  have h := predict_spec_line_yields_unknown 1 predictEnvStdLine [1]
    ⟨0, "Prediction: match_ready; Confidence: 0.87", ""⟩
    (by decide) rfl rfl rfl rfl
  exact ⟨h.1, h.2 parseStInit⟩

/-! ## Training orchestrator claims -/

/-- C6: a missing label yields
`BadRequest("Label is required for training data")` and an out-of-range
label yields the two-value-enumeration `BadRequest`; in both cases the
handler returns with no directory creation, no image write and no audit
append attempted (and only the entry/error logger lines). -/
theorem training_label_validation (env : TrainEnv) :
    (∀ bytes : List Nat, parse_multipart env.items = .ok (bytes, none) →
      training_route env =
        ⟨⟨400, .text "Label is required for training data"⟩, [],
          [.info "Received request to /training", .error "No label provided"]⟩) ∧
    (∀ bytes : List Nat, ∀ label : String,
      parse_multipart env.items = .ok (bytes, some label) →
      label ≠ "match_ready" → label ≠ "not_match_ready" →
      training_route env =
        ⟨⟨400, .text labelEnumMsg⟩, [],
          [.info "Received request to /training", .error ("Invalid label: " ++ label)]⟩) := by
  constructor
  · intro bytes hp
    rw [training_route]
    simp only [hp]
    rfl
  · intro bytes label hp hl1 hl2
    rw [training_route]
    simp only [hp]
    rw [if_pos ⟨hl1, hl2⟩]
    rfl

/-- Witness for C6: a stream with no label part, and one whose label
decodes to `sideways`. -/
theorem training_label_validation_witness :
    training_route ⟨[MPItem.field "image" [.ok [1]]], 9, none,
        ⟨2025, 1, 1, 0, 0, 0, 0⟩, none, ⟨2025, 1, 1, 0, 0, 0, 0⟩, none⟩ =
      ⟨⟨400, .text "Label is required for training data"⟩, [],
        [.info "Received request to /training", .error "No label provided"]⟩ ∧
    training_route ⟨[MPItem.field "image" [.ok [1]],
        MPItem.field "label" [.ok [115, 105, 100, 101, 119, 97, 121, 115]]], 9, none,
        ⟨2025, 1, 1, 0, 0, 0, 0⟩, none, ⟨2025, 1, 1, 0, 0, 0, 0⟩, none⟩ =
      ⟨⟨400, .text labelEnumMsg⟩, [],
        [.info "Received request to /training", .error ("Invalid label: " ++ "sideways")]⟩ := by
  constructor
  · exact (training_label_validation _).1 [1] (by decide)
  · exact (training_label_validation _).2 [1] "sideways" (by decide)
      (by decide) (by decide)

/-- Two instants in the same millisecond that differ at microsecond
resolution (400 µs vs 500 µs into the second). -/
def tMicroA : DateTime := ⟨2025, 6, 7, 8, 9, 10, 400000⟩

/-- See `tMicroA`. -/
def tMicroB : DateTime := ⟨2025, 6, 7, 8, 9, 10, 500000⟩

/-- C7 counterexample: the filename timestamp is *millisecond*-resolution
(`%3f`), so two instants differing only in microseconds produce the same
filename, and the filename carries a `cricket_ball_` prefix, so the
persisted name is not `<timestamp>_<request_id>.jpg`. -/
theorem training_filename_millis_and_prefix :
    tMicroA ≠ tMicroB ∧
      tMicroA.nano / 1000 ≠ tMicroB.nano / 1000 ∧
      trainingFileName tMicroA 77 = trainingFileName tMicroB 77 ∧
      trainingFileName tMicroA 77 ≠
        String.mk (fmtTimestamp tMicroA) ++ "_" ++ intReprStr 77 ++ ".jpg" := by
  decide

/-- C7 (amended): a successful training submission persists the image
under `training_data/<label>/cricket_ball_<timestamp>_<request_id>.jpg`
and reports that filename, where the timestamp has millisecond
resolution: it depends on the instant only through its calendar fields
and its milliseconds. -/
theorem training_saved_filename (env : TrainEnv) (bytes : List Nat) (label : String)
    (hp : parse_multipart env.items = .ok (bytes, some label))
    (hl : label = "match_ready" ∨ label = "not_match_ready")
    (hm : env.mkdirErr = none)
    (hw : env.writeErr = none) :
    (training_route env).resp =
        ⟨200, .trainJson (trainingFileName env.fileTime env.requestId) label env.requestId⟩ ∧
      FsEv.writeTraining ("training_data/" ++ label ++ "/" ++
          trainingFileName env.fileTime env.requestId) ∈ (training_route env).events ∧
      (∀ t tt : DateTime, t.year = tt.year → t.month = tt.month → t.day = tt.day →
        t.hour = tt.hour → t.minute = tt.minute → t.second = tt.second →
        t.nano / 1000000 = tt.nano / 1000000 → fmtTimestamp t = fmtTimestamp tt) := by
  have hne : ¬(label ≠ "match_ready" ∧ label ≠ "not_match_ready") := by
    rcases hl with h | h <;> simp [h]
  refine ⟨?_, ?_, ?_⟩
  · rw [training_route]
    simp only [hp, hm, hw]
    rw [if_neg hne]
  · rw [training_route]
    simp only [hp, hm, hw]
    rw [if_neg hne]
    simp [String.append_assoc]
  · intro t tt h1 h2 h3 h4 h5 h6 h7
    rw [fmtTimestamp, fmtTimestamp, h1, h2, h3, h4, h5, h6, h7]

/-- Witness for C7's amended theorem at a concrete success
environment. -/
theorem training_saved_filename_witness :
    (training_route ⟨[MPItem.field "image" [.ok [1, 5]],
          MPItem.field "label" [.ok [109, 97, 116, 99, 104, 95, 114, 101, 97, 100, 121]]],
          99, none, ⟨2025, 6, 7, 8, 9, 10, 0⟩, none, ⟨2025, 6, 7, 8, 9, 11, 0⟩, none⟩).resp =
        ⟨200, .trainJson "cricket_ball_20250607_080910_000_99.jpg" "match_ready" 99⟩ ∧
      fmtTimestamp ⟨2025, 1, 1, 0, 0, 0, 1000⟩ = fmtTimestamp ⟨2025, 1, 1, 0, 0, 0, 2000⟩ := by
  have h := training_saved_filename
    ⟨[MPItem.field "image" [.ok [1, 5]],
        MPItem.field "label" [.ok [109, 97, 116, 99, 104, 95, 114, 101, 97, 100, 121]]],
        99, none, ⟨2025, 6, 7, 8, 9, 10, 0⟩, none, ⟨2025, 6, 7, 8, 9, 11, 0⟩, none⟩
    [1, 5] "match_ready" (by decide) (Or.inl rfl) rfl rfl
  refine ⟨?_, h.2.2 _ _ rfl rfl rfl rfl rfl rfl (by decide)⟩
  rw [h.1]
  decide

/-! ## Injectivity of the training filename in the request id -/

theorem digitChar_toNat (d : Nat) (h : d < 10) : (digitChar d).toNat - 48 = d := by
  interval_cases d <;> decide

theorem digitsVal_append_digit (l : List Char) (c : Char) :
    digitsVal (l ++ [c]) = digitsVal l * 10 + (c.toNat - 48) := by
  rw [digitsVal, digitsVal, List.foldl_append]
  rfl

theorem digitsVal_natReprAux (f : Nat) : ∀ n : Nat, n ≤ f →
    digitsVal (natReprAux f n) = n := by
  induction f with
  | zero =>
    intro n hn
    interval_cases n
    rfl
  | succ f ih =>
    intro n hn
    match n with
    | 0 => rfl
    | m + 1 =>
      have hq : (m + 1) / 10 ≤ f := by omega
      have hr : (m + 1) % 10 < 10 := by omega
      rw [natReprAux, digitsVal_append_digit, ih _ hq, digitChar_toNat _ hr]
      omega

theorem digitsVal_natRepr (n : Nat) : digitsVal (natRepr n) = n := by
  rw [natRepr]
  split
  · next h => rw [h]; rfl
  · exact digitsVal_natReprAux n n le_rfl

theorem natRepr_inj (a b : Nat) (h : natRepr a = natRepr b) : a = b := by
  have := congrArg digitsVal h
  rwa [digitsVal_natRepr, digitsVal_natRepr] at this

theorem natReprAux_mem (f : Nat) : ∀ n : Nat, ∀ c ∈ natReprAux f n,
    ∃ d : Nat, d < 10 ∧ c = digitChar d := by
  induction f with
  | zero =>
    intro n c hc
    match n with
    | 0 => cases hc
    | m + 1 => cases hc
  | succ f ih =>
    intro n c hc
    match n with
    | 0 => cases hc
    | m + 1 =>
      rw [natReprAux] at hc
      rcases List.mem_append.mp hc with hc | hc
      · exact ih _ c hc
      · rcases List.mem_singleton.mp hc with rfl
        exact ⟨(m + 1) % 10, by omega, rfl⟩

theorem natRepr_mem (n : Nat) : ∀ c ∈ natRepr n, ∃ d : Nat, d < 10 ∧ c = digitChar d := by
  rw [natRepr]
  split
  · intro c hc
    rcases List.mem_singleton.mp hc with rfl
    exact ⟨0, by omega, rfl⟩
  · exact natReprAux_mem n n

theorem underscore_not_mem_natRepr (n : Nat) : '_' ∉ natRepr n := by
  intro hc
  obtain ⟨d, hd, he⟩ := natRepr_mem n '_' hc
  revert he
  interval_cases d <;> decide

theorem dash_not_mem_natRepr (n : Nat) : '-' ∉ natRepr n := by
  intro hc
  obtain ⟨d, hd, he⟩ := natRepr_mem n '-' hc
  revert he
  interval_cases d <;> decide

theorem natRepr_ne_nil (n : Nat) : natRepr n ≠ [] := by
  intro h
  have := congrArg digitsVal h
  rw [digitsVal_natRepr] at this
  -- `digitsVal [] = 0`, so `n = 0`; but `natRepr 0 = ['0'] ≠ []`
  subst this
  exact absurd h (by decide)

theorem intRepr_inj (a b : Int) (h : intRepr a = intRepr b) : a = b := by
  match a, b with
  | .ofNat x, .ofNat y =>
    rw [intRepr, intRepr] at h
    rw [natRepr_inj x y h]
  | .negSucc x, .negSucc y =>
    rw [intRepr, intRepr] at h
    injection h with _ h
    rw [Nat.succ_injective (natRepr_inj _ _ h)]
  | .ofNat x, .negSucc y =>
    rw [intRepr, intRepr] at h
    exact absurd (h ▸ List.mem_cons_self '-' (natRepr (y + 1))) (dash_not_mem_natRepr x)
  | .negSucc x, .ofNat y =>
    rw [intRepr, intRepr] at h
    exact absurd (h ▸ List.mem_cons_self '-' (natRepr (x + 1))) (dash_not_mem_natRepr y)

theorem underscore_not_mem_intRepr (i : Int) : '_' ∉ intRepr i := by
  match i with
  | .ofNat x => exact underscore_not_mem_natRepr x
  | .negSucc x =>
    rw [intRepr]
    intro hc
    rcases List.mem_cons.mp hc with hc | hc
    · cases hc
    · exact underscore_not_mem_natRepr _ hc

/-- In a concatenation `l ++ '_' :: s` whose suffix `s` is free of
underscores, the suffix is determined: it is everything after the *last*
underscore. -/
theorem suffix_after_last_underscore :
    ∀ l1 l2 s1 s2 : List Char, l1 ++ '_' :: s1 = l2 ++ '_' :: s2 →
      '_' ∉ s1 → '_' ∉ s2 → s1 = s2 := by
  intro l1
  induction l1 with
  | nil =>
    intro l2 s1 s2 h hn1 _
    match l2 with
    | [] =>
      injection h
    | c :: l2' =>
      injection h with h1 h2
      exact absurd (h2 ▸ List.mem_append_right l2' (List.mem_cons_self '_' s2)) hn1
  | cons c l1' ih =>
    intro l2 s1 s2 h hn1 hn2
    match l2 with
    | [] =>
      injection h with h1 h2
      exact absurd ((h2.symm) ▸ List.mem_append_right l1' (List.mem_cons_self '_' s1)) hn2
    | c2 :: l2' =>
      injection h with h1 h2
      exact ih l2' s1 s2 h2 hn1 hn2

/-- C9: the training filename function is injective in the request id —
for any two timestamps and distinct request ids the generated filenames
differ, so two saved training files never collide. -/
theorem training_filenames_distinct (t1 t2 : DateTime) (id1 id2 : Int)
    (h : id1 ≠ id2) : trainingFileName t1 id1 ≠ trainingFileName t2 id2 := by
  intro heq
  apply h
  have hchars : trainingFileNameChars t1 id1 = trainingFileNameChars t2 id2 :=
    congrArg String.data heq
  have h' : ("cricket_ball_".toList ++ fmtTimestamp t1) ++
        '_' :: (intRepr id1 ++ ".jpg".toList) =
      ("cricket_ball_".toList ++ fmtTimestamp t2) ++
        '_' :: (intRepr id2 ++ ".jpg".toList) := by
    simpa [trainingFileNameChars, List.append_assoc] using hchars
  have hn1 : '_' ∉ intRepr id1 ++ ".jpg".toList := by
    intro hm
    rcases List.mem_append.mp hm with hm | hm
    · exact underscore_not_mem_intRepr id1 hm
    · revert hm; decide
  have hn2 : '_' ∉ intRepr id2 ++ ".jpg".toList := by
    intro hm
    rcases List.mem_append.mp hm with hm | hm
    · exact underscore_not_mem_intRepr id2 hm
    · revert hm; decide
  have hs := suffix_after_last_underscore _ _ _ _ h' hn1 hn2
  exact intRepr_inj id1 id2 (List.append_inj' hs rfl).1

/-- Witness for C9 at concrete distinct request ids. -/
theorem training_filenames_distinct_witness :
    (1 : Int) ≠ 2 ∧
      trainingFileName ⟨2025, 6, 7, 8, 9, 10, 0⟩ 1 ≠
        trainingFileName ⟨2025, 6, 7, 8, 9, 10, 0⟩ 2 :=
  ⟨by decide, training_filenames_distinct _ _ 1 2 (by decide)⟩
